import Mathlib

/-!
Verification development for the Nommie repository (a four-player Nomination
Whist implementation).  The repository under verification contains the
Next.js frontend (card rendering, polling hook, NextAuth token refresh) and
project documentation; the Rust game engine is described by the design
documents and its snapshot types are consumed by the frontend, so the engine
operations are modelled here from the specification text where noted.
-/

/-! ### Card model

Suits and ranks as described in §3 of the design document: rank 2..14 with
11–14 = J,Q,K,A, suit one of four.  Trump additionally has a "no trump"
sentinel. -/

/-- The four card suits. -/
inductive Suit where
  | S | H | D | C
deriving DecidableEq, Fintype, Repr

/-- A trump designation: a suit or the "no trump" sentinel. -/
inductive Trump where
  | suit (s : Suit)
  | noTrump
deriving DecidableEq, Repr

/-- Card ranks 2..14 where 11–14 are J, Q, K, A. -/
inductive Rank where
  | r2 | r3 | r4 | r5 | r6 | r7 | r8 | r9 | r10 | rJ | rQ | rK | rA
deriving DecidableEq, Fintype, Repr

/-- Numeric value of a rank (2..14, where 11–14 = J,Q,K,A). -/
def Rank.value : Rank → Nat
  | .r2 => 2 | .r3 => 3 | .r4 => 4 | .r5 => 5 | .r6 => 6 | .r7 => 7
  | .r8 => 8 | .r9 => 9 | .r10 => 10 | .rJ => 11 | .rQ => 12 | .rK => 13
  | .rA => 14

/-- An immutable card value: rank and suit (§3 of the design document). -/
structure GameCard where
  rank : Rank
  suit : Suit
deriving DecidableEq, Fintype, Repr

/-- Rank part of the card text representation: "2".."10", "J", "Q", "K", "A". -/
def rankText : Rank → String
  | .r2 => "2" | .r3 => "3" | .r4 => "4" | .r5 => "5" | .r6 => "6"
  | .r7 => "7" | .r8 => "8" | .r9 => "9" | .r10 => "10"
  | .rJ => "J" | .rQ => "Q" | .rK => "K" | .rA => "A"

/-- Suit part of the card text representation: one character S, H, D or C. -/
def suitText : Suit → String
  | .S => "S" | .H => "H" | .D => "D" | .C => "C"

/-- Modelled from the spec: the card text representation consumed by the
external view/serialization layer is the rank text followed by the suit
character (§6); examples in the frontend source are "8H", "AS", "10D". -/
def cardText (c : GameCard) : String :=
  rankText c.rank ++ suitText c.suit

/-- The rank part recovered by the frontend card component
(`card.slice(0, -1)` in the Card component): all but the last character. -/
def cardTextRank (card : String) : String :=
  card.dropRight 1

/-- The suit part recovered by the frontend card component
(`card.slice(-1)` in the Card component): the last character. -/
def cardTextSuit (card : String) : String :=
  card.takeRight 1

/-! ### Suit rendering (frontend Card component) -/

/-- `getSuitSymbol` from the frontend Card component: maps the four suit
characters to their glyphs and returns any other input unchanged. -/
def getSuitSymbol (suit : String) : String :=
  if suit = "H" then "♥"
  else if suit = "D" then "♦"
  else if suit = "C" then "♣"
  else if suit = "S" then "♠"
  else suit

/-- `getSuitColor` from the frontend Card component: red text for hearts and
diamonds, gray text otherwise. -/
def getSuitColor (suit : String) : String :=
  if suit = "H" ∨ suit = "D" then "text-red-600" else "text-gray-800"

/-! ### Round schedule (engine) -/

/-- Modelled from the spec: the engine's round-size schedule is absent from
the sources; the README "Round Structure" section fixes it: 26 rounds total,
start with 13 cards per player, decrease by one per round down to 2, play
four rounds at 2 cards, increase back up to 13.  With 26 rounds in total and
the final round back at 13 cards, rounds 1–12 deal `14 - r`, rounds 13–15
deal 2 (so rounds 12–15 are the four rounds at two cards), and rounds 16–26
deal `r - 13`. -/
def cardsDealt (round : Nat) : Nat :=
  if round ≤ 12 then 14 - round
  else if round ≤ 15 then 2
  else round - 13

/-- Total number of rounds in a game (README: "Total: 26 rounds"). -/
def totalRounds : Nat := 26

/-- The full round-size schedule, rounds 1..26 in order. -/
def roundSchedule : List Nat :=
  (List.range totalRounds).map (fun i => cardsDealt (i + 1))

/-! ### Bidding (engine) -/

/-- Modelled from the spec: the maximum bid of a list of bids
(`compare_bid` is used only to find the maximum). -/
def maxBid (bids : List Nat) : Nat :=
  bids.foldr max 0

/-- Modelled from the spec: the winning bidder among bids listed in the
turn order of bidding — the earliest bidder holding the maximum bid
(first-to-bid-highest wins ties). -/
def winningBidder (bids : List Nat) : Nat :=
  bids.indexOf (maxBid bids)

/-- Bid submission errors relevant to bidding (§7 of the design document). -/
inductive BidError where
  | outOfTurn
  | invalidBid
  | alreadyBid
deriving DecidableEq, Repr

/-- Modelled from the spec: bidding-phase state of a round — the cards
dealt this round, the bid recorded so far for each seat (seats 0..3 in
turn order), and the seat currently awaited to bid. -/
structure BidState where
  dealtCount : Nat
  bids : Fin 4 → Option Nat
  awaiting : Fin 4

/-- Modelled from the spec: `submit_bid`.  Returns the successor state and
an optional error; a rejected submission returns the input state unchanged
(no partial mutation).  The duplicate-bid check precedes the turn check so
that resubmitting an already-applied bid reports `alreadyBid`, as the
spec's idempotence property requires. -/
def submitBid (st : BidState) (p : Fin 4) (v : Nat) : BidState × Option BidError :=
  if (st.bids p).isSome then (st, some .alreadyBid)
  else if p ≠ st.awaiting then (st, some .outOfTurn)
  else if ¬ v ≤ st.dealtCount then (st, some .invalidBid)
  else ({ st with
          bids := fun q => if q = p then some v else st.bids q,
          awaiting := ⟨(st.awaiting.val + 1) % 4, by omega⟩ }, none)

/-! ### Scoring (engine) -/

/-- Tricks won by player `p` in a round: the count of tricks whose recorded
winner is `p` (winners listed by seat index). -/
def tricksWon (winners : List (Fin 4)) (p : Fin 4) : Nat :=
  winners.count p

/-- Modelled from the spec: `score_round` per-player delta — one point per
trick won plus a bonus of 10 when tricks won equal the player's bid. -/
def scoreDelta (bids : Fin 4 → Nat) (winners : List (Fin 4)) (p : Fin 4) : Nat :=
  tricksWon winners p + (if tricksWon winners p = bids p then 10 else 0)

/-- Modelled from the spec: deltas are added to each player's running
total after scoring. -/
def applyRoundScores (totals bids : Fin 4 → Nat) (winners : List (Fin 4)) :
    Fin 4 → Nat :=
  fun p => totals p + scoreDelta bids winners p

/-! ### Trick winner (engine) -/

/-- Whether a card counts as trump under the round's trump designation
(no card is trump when "no trump" was chosen). -/
def isTrumpCard (t : Trump) (c : GameCard) : Bool :=
  match t with
  | .suit s => c.suit = s
  | .noTrump => false

/-- One comparison step of the highest-card scan: keep the current best
play unless the challenger's card has a strictly higher rank. -/
def pickHigher (best : Option (Fin 4 × GameCard)) (q : Fin 4 × GameCard) :
    Option (Fin 4 × GameCard) :=
  match best with
  | none => some q
  | some b => if b.2.rank.value < q.2.rank.value then some q else some b

/-- The play with the highest-ranked card, keeping the earlier play when
ranks tie. -/
def highestPlay (plays : List (Fin 4 × GameCard)) : Option (Fin 4 × GameCard) :=
  plays.foldl pickHigher none

/-- Modelled from the spec: `trick_winner` — the winning play is the
highest-ranked card among cards of the trump suit if any trump was played;
otherwise the highest-ranked card of the led suit. -/
def trickWinner (plays : List (Fin 4 × GameCard)) (led : Suit) (t : Trump) :
    Option (Fin 4) :=
  let trumps := plays.filter (fun q => isTrumpCard t q.2)
  let pool :=
    if trumps.isEmpty then plays.filter (fun q => q.2.suit = led) else trumps
  (highestPlay pool).map Prod.fst

/-! ### Snapshot / view builder (engine) -/

/-- Per-player state held by the engine during a round. -/
structure PlayerState where
  pid : String
  turnOrder : Nat
  isReady : Bool
  isAi : Bool
  totalScore : Nat
  hand : List GameCard

/-- Public round-level state (phase, trump, bids, tricks, turn pointers). -/
structure RoundState where
  roundNumber : Nat
  phase : String
  trumpSuit : Option Trump
  bids : List (Fin 4 × Nat)
  completedTricks : List (List (Fin 4 × GameCard))
  currentTrick : List (Fin 4 × GameCard)
  currentTurn : Option (Fin 4)

/-- The engine's full in-memory state for one game. -/
structure EngineGameState where
  players : Fin 4 → PlayerState
  round : RoundState

/-- One player entry of the snapshot sent to a viewer; mirrors the
frontend's `PlayerSnapshot` interface, whose `hand` field is nullable. -/
structure PlayerSnap where
  pid : String
  turnOrder : Nat
  isReady : Bool
  isAi : Bool
  totalScore : Nat
  hand : Option (List GameCard)

/-- The snapshot sent to a viewer; mirrors the frontend `GameSnapshot`. -/
structure ViewSnapshot where
  players : Fin 4 → PlayerSnap
  round : RoundState

/-- Modelled from the spec: `build_view` — includes all public fields
(scores, bids, trump, completed tricks, current trick, turn pointers) but
includes `hand` only for the viewer; all other players' hands are
omitted. -/
def buildView (g : EngineGameState) (viewer : Fin 4) : ViewSnapshot :=
  { players := fun i =>
      { pid := (g.players i).pid
        turnOrder := (g.players i).turnOrder
        isReady := (g.players i).isReady
        isAi := (g.players i).isAi
        totalScore := (g.players i).totalScore
        hand := if i = viewer then some (g.players i).hand else none }
    round := g.round }

/-! ### Polling hook (frontend `usePolling`) -/

/-- A JavaScript error value, abstracted to its message. -/
structure JsError where
  message : String
deriving DecidableEq, Repr

/-- The possible outcomes of one invocation of the polling callback: a
normal synchronous return, a synchronous throw, or a returned promise that
later resolves or rejects. -/
inductive CallbackOutcome where
  | syncReturn
  | syncThrow (e : JsError)
  | promiseResolve
  | promiseReject (e : JsError)
deriving DecidableEq, Repr

/-- The control outcome of running a piece of JavaScript: normal
completion or a propagated (uncaught) exception. -/
inductive JsControl where
  | normal
  | thrown (e : JsError)
deriving DecidableEq, Repr

/-- How a returned promise eventually settles. -/
inductive PromiseResult where
  | resolved
  | rejected (e : JsError)
deriving DecidableEq, Repr

/-- Semantics of invoking the raw callback with no protection: a
synchronous throw propagates to the caller; otherwise the call completes
normally, possibly yielding a promise that settles later. -/
def invokeCallback (out : CallbackOutcome) : JsControl × Option PromiseResult :=
  match out with
  | .syncReturn => (.normal, none)
  | .syncThrow e => (.thrown e, none)
  | .promiseResolve => (.normal, some .resolved)
  | .promiseReject e => (.normal, some (.rejected e))

/-- `safeCallback` from `usePolling`: the invocation runs inside
`try`/`catch` (a synchronous throw is caught and logged) and a returned
promise gets a `.catch` handler (a rejection is caught and logged).
Returns the control outcome seen by the interval scheduler together with
the errors logged to the console. -/
def safeCallback (out : CallbackOutcome) : JsControl × List JsError :=
  match invokeCallback out with
  | (.thrown e, _) => (.normal, [e])
  | (.normal, some (.rejected e)) => (.normal, [e])
  | (.normal, _) => (.normal, [])

/-- The interval loop set up by `usePolling` while enabled: every scheduled
tick invokes `safeCallback`; the list collects each tick's outcome. -/
def pollTicks (outcomes : List CallbackOutcome) : List (JsControl × List JsError) :=
  outcomes.map safeCallback

/-! ### NextAuth token refresh (frontend lib/auth.ts) -/

/-- `TOKEN_LIFESPAN_SECONDS` from lib/auth.ts: one hour. -/
def TOKEN_LIFESPAN_SECONDS : Int := 60 * 60

/-- The claims of an access token produced by `signToken`:
subject, optional email, issued-at and expiry times in epoch seconds. -/
structure SignedToken where
  sub : String
  email : Option String
  iat : Int
  exp : Int
deriving DecidableEq, Repr

/-- `signToken` from lib/auth.ts: sets `iat` to the current epoch second
and `exp` to `iat + TOKEN_LIFESPAN_SECONDS`. -/
def signToken (sub : String) (email : Option String) (now : Int) : SignedToken :=
  { sub := sub, email := email, iat := now, exp := now + TOKEN_LIFESPAN_SECONDS }

/-- The NextAuth JWT as augmented in lib/auth.ts: optional subject and
email plus the minted backend access token and its creation time. -/
structure AuthJWT where
  sub : Option String
  email : Option String
  accessToken : Option SignedToken
  accessTokenCreatedAt : Option Int
deriving DecidableEq, Repr

/-- The `user` object the jwt callback receives on sign-in. -/
structure AuthUser where
  id : Option String
  email : Option String
deriving DecidableEq, Repr

/-- The `jwt` callback from lib/auth.ts: persists id/email from `user`
when present, then mints a fresh access token when there is none or the
stored one is expired (`now - createdAt > TOKEN_LIFESPAN_SECONDS`, with a
missing `accessTokenCreatedAt` treated as 0); otherwise the token is
returned with its access-token fields untouched. -/
def jwtCallback (token : AuthJWT) (user : Option AuthUser) (now : Int) : AuthJWT :=
  let token1 :=
    match user with
    | some u =>
        { token with
          sub := match u.id with | some i => some i | none => token.sub,
          email := u.email }
    | none => token
  let createdAt := token1.accessTokenCreatedAt.getD 0
  if token1.accessToken = none ∨ now - createdAt > TOKEN_LIFESPAN_SECONDS then
    { token1 with
      accessToken := some (signToken (token1.sub.getD "") token1.email now),
      accessTokenCreatedAt := some now }
  else token1

/-! ### Helper lemmas -/

theorem maxBid_cons (b : Nat) (l : List Nat) : maxBid (b :: l) = max b (maxBid l) :=
  rfl

theorem maxBid_mem : ∀ {bids : List Nat}, bids ≠ [] → maxBid bids ∈ bids
  | [], h => absurd rfl h
  | [b], _ => by simp [maxBid]
  | b :: c :: l, _ => by
    rcases Nat.le_total b (maxBid (c :: l)) with h1 | h1
    · have := maxBid_mem (show c :: l ≠ [] by simp)
      rw [maxBid_cons, Nat.max_eq_right h1]
      exact List.mem_cons_of_mem _ this
    · rw [maxBid_cons, Nat.max_eq_left h1]
      exact List.mem_cons_self _ _

theorem le_maxBid {bids : List Nat} {x : Nat} (hx : x ∈ bids) : x ≤ maxBid bids := by
  induction bids with
  | nil => simp at hx
  | cons b l ih =>
    rcases List.mem_cons.mp hx with h | h
    · subst h; rw [maxBid_cons]; exact Nat.le_max_left _ _
    · rw [maxBid_cons]; exact Nat.le_trans (ih h) (Nat.le_max_right _ _)

theorem getElem_lt_indexOf_ne {α : Type} [DecidableEq α] :
    ∀ (l : List α) (a : α) (j : Nat), j < l.indexOf a → l[j]? ≠ some a
  | [], a, j, h => by simp [List.indexOf] at h
  | b :: l, a, j, h => by
    by_cases hba : b = a
    · rw [List.indexOf_cons_eq _ hba] at h; omega
    · rcases j with _ | j
      · simpa using fun hh => hba hh
      · rw [List.indexOf_cons_ne _ hba] at h
        simpa using getElem_lt_indexOf_ne l a j (Nat.lt_of_succ_lt_succ h)

theorem foldl_pickHigher_spec :
    ∀ (l : List (Fin 4 × GameCard)) (b : Fin 4 × GameCard),
      ∃ q, l.foldl pickHigher (some b) = some q ∧ (q = b ∨ q ∈ l) ∧
        b.2.rank.value ≤ q.2.rank.value ∧
        ∀ x ∈ l, x.2.rank.value ≤ q.2.rank.value
  | [], b => ⟨b, rfl, Or.inl rfl, Nat.le_refl _, by simp⟩
  | c :: l, b => by
    by_cases hlt : b.2.rank.value < c.2.rank.value
    · obtain ⟨q, hq, hmem, hle, hbound⟩ := foldl_pickHigher_spec l c
      refine ⟨q, ?_, ?_, ?_, ?_⟩
      · simpa [List.foldl_cons, pickHigher, hlt] using hq
      · rcases hmem with h | h
        · exact Or.inr (h ▸ List.mem_cons_self _ _)
        · exact Or.inr (List.mem_cons_of_mem _ h)
      · exact Nat.le_trans (Nat.le_of_lt hlt) hle
      · intro x hx
        rcases List.mem_cons.mp hx with h | h
        · subst h; exact hle
        · exact hbound x h
    · obtain ⟨q, hq, hmem, hle, hbound⟩ := foldl_pickHigher_spec l b
      refine ⟨q, ?_, ?_, hle, ?_⟩
      · simpa [List.foldl_cons, pickHigher, hlt] using hq
      · rcases hmem with h | h
        · exact Or.inl h
        · exact Or.inr (List.mem_cons_of_mem _ h)
      · intro x hx
        rcases List.mem_cons.mp hx with h | h
        · subst h
          exact Nat.le_trans (Nat.le_of_not_lt hlt) hle
        · exact hbound x h

theorem highestPlay_spec {plays : List (Fin 4 × GameCard)} (h : plays ≠ []) :
    ∃ q ∈ plays, highestPlay plays = some q ∧
      ∀ x ∈ plays, x.2.rank.value ≤ q.2.rank.value := by
  match plays, h with
  | p :: rest, _ =>
    obtain ⟨q, hq, hmem, hle, hbound⟩ := foldl_pickHigher_spec rest p
    refine ⟨q, ?_, ?_, ?_⟩
    · rcases hmem with hh | hh
      · exact hh ▸ List.mem_cons_self _ _
      · exact List.mem_cons_of_mem _ hh
    · simpa [highestPlay, List.foldl_cons, pickHigher] using hq
    · intro x hx
      rcases List.mem_cons.mp hx with hh | hh
      · subst hh; exact hle
      · exact hbound x hh

/-! ### Claim theorems -/

/-- C1 (counterexample): the card text representation is not always exactly
two characters — the 10 of Spades is rendered "10S", three characters. -/
theorem cardText_two_chars_false :
    cardText { rank := Rank.r10, suit := Suit.S } = "10S" ∧
    ¬ ((cardText { rank := Rank.r10, suit := Suit.S }).length = 2) := by
  decide

/-- C1 (amended): for every card the text representation is the rank text
followed by one suit character — two characters for every rank except 10,
whose representation has three — and parsing the string by taking all but
the last character as the rank and the last character as the suit (as the
frontend Card component does) recovers the original rank and suit. -/
theorem cardText_roundtrip :
    ∀ c : GameCard,
      cardTextRank (cardText c) = rankText c.rank ∧
      cardTextSuit (cardText c) = suitText c.suit ∧
      (cardText c).length = (if c.rank = Rank.r10 then 3 else 2) := by
  decide

/-- C2: for every completed round and player, the `score_round` delta is
tricks_won + 10 when tricks_won equals the player's bid and exactly
tricks_won otherwise, where tricks_won counts the tricks whose recorded
winner is that player; the delta is added to the player's running total. -/
theorem scoreRound_delta_spec (bids : Fin 4 → Nat) (winners : List (Fin 4))
    (totals : Fin 4 → Nat) (p : Fin 4) :
    scoreDelta bids winners p =
      (if tricksWon winners p = bids p then tricksWon winners p + 10
       else tricksWon winners p) ∧
    tricksWon winners p = winners.count p ∧
    applyRoundScores totals bids winners p = totals p + scoreDelta bids winners p := by
  refine ⟨?_, rfl, rfl⟩
  unfold scoreDelta
  split <;> simp

/-- C4 (counterexample): the claim's schedule cannot hold — its listed
sequence 13..2, 2,2,2,2, 3..13 has 27 entries while the total round count
is 26, and in the modelled schedule round 16 deals 3 cards, not 2, so
rounds 13 through 16 do not all deal 2. -/
theorem roundSchedule_claim_false :
    cardsDealt 16 = 3 ∧ ¬ (cardsDealt 16 = 2) ∧
    (([13, 12, 11, 10, 9, 8, 7, 6, 5, 4, 3, 2] ++ [2, 2, 2, 2] ++
        [3, 4, 5, 6, 7, 8, 9, 10, 11, 12, 13] : List Nat)).length ≠ totalRounds := by
  decide

/-- C4 (amended): the round-size schedule is the fixed sequence 13,12,...,2
(rounds 1–12), then 2,2,2 (rounds 13–15, making rounds 12–15 the four
rounds at two cards), then 3,4,...,13 (rounds 16–26); the total number of
rounds is exactly 26, round 1 deals 13 cards, rounds 12 through 15 all
deal 2 cards, and round 26 deals 13 cards. -/
theorem roundSchedule_spec :
    roundSchedule =
      ([13, 12, 11, 10, 9, 8, 7, 6, 5, 4, 3, 2] ++ [2, 2, 2] ++
        [3, 4, 5, 6, 7, 8, 9, 10, 11, 12, 13] : List Nat) ∧
    roundSchedule.length = totalRounds ∧
    totalRounds = 26 ∧
    cardsDealt 1 = 13 ∧
    cardsDealt 12 = 2 ∧ cardsDealt 13 = 2 ∧ cardsDealt 14 = 2 ∧
    cardsDealt 15 = 2 ∧ cardsDealt 16 = 3 ∧
    cardsDealt 26 = 13 := by
  decide

/-- C8: `getSuitSymbol` maps H, D, C, S to their glyphs and returns every
other string unchanged, and `getSuitColor` returns the red text class
exactly for H and D and the gray text class otherwise. -/
theorem suitRender_spec (s : String) :
    getSuitSymbol "H" = "♥" ∧ getSuitSymbol "D" = "♦" ∧
    getSuitSymbol "C" = "♣" ∧ getSuitSymbol "S" = "♠" ∧
    (s ≠ "H" → s ≠ "D" → s ≠ "C" → s ≠ "S" → getSuitSymbol s = s) ∧
    getSuitColor s =
      (if s = "H" ∨ s = "D" then "text-red-600" else "text-gray-800") := by
  refine ⟨by decide, by decide, by decide, by decide, ?_, rfl⟩
  intro h1 h2 h3 h4
  simp [getSuitSymbol, h1, h2, h3, h4]

/-- C8 witness: a non-suit string is returned unchanged. -/
theorem suitRender_spec_witness :
    ("X" : String) ≠ "H" ∧ getSuitSymbol "X" = "X" :=
  ⟨by decide,
    (suitRender_spec "X").2.2.2.2.1 (by decide) (by decide) (by decide) (by decide)⟩

/-- C5: with all four bids collected in turn order, the winning bidder
holds the maximum bid and is the earliest such bidder in turn order; in
particular bids 3, 5, 5, 2 are won by the second bidder. -/
theorem winningBidder_spec (b0 b1 b2 b3 : Nat) :
    ([b0, b1, b2, b3][winningBidder [b0, b1, b2, b3]]? =
        some (maxBid [b0, b1, b2, b3])) ∧
    (∀ j, j < winningBidder [b0, b1, b2, b3] →
        [b0, b1, b2, b3][j]? ≠ some (maxBid [b0, b1, b2, b3])) ∧
    (∀ x ∈ [b0, b1, b2, b3], x ≤ maxBid [b0, b1, b2, b3]) ∧
    winningBidder [3, 5, 5, 2] = 1 := by
  refine ⟨?_, ?_, ?_, by decide⟩
  · exact List.getElem?_indexOf (maxBid_mem (by simp))
  · intro j hj
    exact getElem_lt_indexOf_ne _ _ _ hj
  · intro x hx
    exact le_maxBid hx

/-- C5 witness: instantiated at the tie scenario 3, 5, 5, 2. -/
theorem winningBidder_spec_witness :
    [3, 5, 5, 2][winningBidder [3, 5, 5, 2]]? = some (maxBid [3, 5, 5, 2]) :=
  (winningBidder_spec 3 5 5 2).1

/-- C6: resubmitting a bid for a player who already has a recorded bid
returns the `alreadyBid` error with the state exactly unchanged, and every
rejected bid submission returns the input state unchanged (no partial
mutation). -/
theorem submitBid_alreadyBid_spec (st : BidState) (p : Fin 4) (v : Nat)
    (h : (st.bids p).isSome = true) :
    submitBid st p v = (st, some BidError.alreadyBid) ∧
    ∀ (st2 : BidState) (q : Fin 4) (w : Nat) (e : BidError),
      (submitBid st2 q w).2 = some e → (submitBid st2 q w).1 = st2 := by
  constructor
  · simp [submitBid, h]
  · intro st2 q w e he
    by_cases h1 : (st2.bids q).isSome = true
    · simp [submitBid, h1]
    · by_cases h2 : q = st2.awaiting
      · subst h2
        by_cases h3 : w ≤ st2.dealtCount
        · simp [submitBid, h1, h3] at he
        · simp [submitBid, h1, h3]
      · simp [submitBid, h1, h2]

/-- C6 witness: a concrete bidding state where seat 0 already bid 3;
resubmitting any bid for seat 0 is rejected with `alreadyBid` and the
state is unchanged. -/
theorem submitBid_alreadyBid_spec_witness :
    submitBid ⟨5, fun q => if q = 0 then some 3 else none, 1⟩ 0 4 =
      (⟨5, fun q => if q = 0 then some 3 else none, 1⟩, some BidError.alreadyBid) :=
  (submitBid_alreadyBid_spec ⟨5, fun q => if q = 0 then some 3 else none, 1⟩ 0 4
    (by decide)).1

/-- C7: the snapshot built for a viewer contains hand data only for the
viewer — every other player's hand is `none` — while all public fields
(per-player public data and the round's scores, bids, trump, tricks and
turn pointers) are included unchanged for everyone. -/
theorem buildView_spec (g : EngineGameState) (viewer i : Fin 4) :
    (i ≠ viewer → ((buildView g viewer).players i).hand = none) ∧
    ((buildView g viewer).players viewer).hand = some ((g.players viewer).hand) ∧
    ((buildView g viewer).players i).pid = (g.players i).pid ∧
    ((buildView g viewer).players i).turnOrder = (g.players i).turnOrder ∧
    ((buildView g viewer).players i).isReady = (g.players i).isReady ∧
    ((buildView g viewer).players i).isAi = (g.players i).isAi ∧
    ((buildView g viewer).players i).totalScore = (g.players i).totalScore ∧
    (buildView g viewer).round = g.round := by
  refine ⟨?_, ?_, rfl, rfl, rfl, rfl, rfl, rfl⟩
  · intro hne
    simp [buildView, hne]
  · simp [buildView]

/-- C7 witness: in a concrete game, the snapshot built for seat 0 shows no
hand for seat 1. -/
theorem buildView_spec_witness :
    ((buildView
        ⟨fun _ => ⟨"p0", 0, true, false, 0, [⟨Rank.rA, Suit.S⟩]⟩,
          ⟨1, "bidding", none, [], [], [], none⟩⟩ 0).players 1).hand = none :=
  (buildView_spec
    ⟨fun _ => ⟨"p0", 0, true, false, 0, [⟨Rank.rA, Suit.S⟩]⟩,
      ⟨1, "bidding", none, [], [], [], none⟩⟩ 0 1).1 (by decide)

/-- C9: a synchronous exception thrown by the polling callback, or a
rejection of the promise it returns, is caught inside `safeCallback` and
never propagates to the interval scheduler or the caller, and the polling
loop performs every scheduled tick regardless of failing invocations. -/
theorem usePolling_spec (outcomes : List CallbackOutcome) (out : CallbackOutcome) :
    (safeCallback out).1 = JsControl.normal ∧
    (pollTicks outcomes).length = outcomes.length ∧
    ∀ r ∈ pollTicks outcomes, r.1 = JsControl.normal := by
  refine ⟨?_, List.length_map _ _, ?_⟩
  · cases out <;> rfl
  · intro r hr
    obtain ⟨o, -, rfl⟩ := List.mem_map.mp hr
    cases o <;> rfl

/-- C9 witness: a synchronously throwing callback still yields a normal
completion to the scheduler. -/
theorem usePolling_spec_witness :
    (safeCallback (CallbackOutcome.syncThrow ⟨"boom"⟩)).1 = JsControl.normal :=
  (usePolling_spec [] (CallbackOutcome.syncThrow ⟨"boom"⟩)).1

/-- C10: `signToken` always sets exp to exactly iat + 3600 seconds, and the
jwt callback mints a fresh access token exactly when the token has no
access token or its stored creation time is more than 3600 seconds before
now (a missing creation time counting as 0); otherwise the access-token
fields are returned unchanged. -/
theorem authToken_spec (token : AuthJWT) (user : Option AuthUser) (now : Int)
    (s : String) (e : Option String) :
    (signToken s e now).exp = (signToken s e now).iat + TOKEN_LIFESPAN_SECONDS ∧
    TOKEN_LIFESPAN_SECONDS = 3600 ∧
    ((token.accessToken = none ∨
        now - token.accessTokenCreatedAt.getD 0 > TOKEN_LIFESPAN_SECONDS) →
      (jwtCallback token user now).accessTokenCreatedAt = some now ∧
      ((jwtCallback token user now).accessToken).map SignedToken.iat = some now ∧
      ((jwtCallback token user now).accessToken).map SignedToken.exp =
        some (now + TOKEN_LIFESPAN_SECONDS)) ∧
    (¬ (token.accessToken = none ∨
        now - token.accessTokenCreatedAt.getD 0 > TOKEN_LIFESPAN_SECONDS) →
      (jwtCallback token user now).accessToken = token.accessToken ∧
      (jwtCallback token user now).accessTokenCreatedAt =
        token.accessTokenCreatedAt) := by
  refine ⟨rfl, by decide, ?_, ?_⟩
  · intro hc
    cases user with
    | none =>
      simp only [jwtCallback]
      rw [if_pos hc]
      simp [signToken]
    | some u =>
      simp only [jwtCallback]
      rw [if_pos (by simpa using hc)]
      simp [signToken]
  · intro hc
    cases user with
    | none =>
      simp only [jwtCallback]
      rw [if_neg hc]
      exact ⟨rfl, rfl⟩
    | some u =>
      simp only [jwtCallback]
      rw [if_neg (by simpa using hc)]
      simp

/-- C10 witness: a token with no access token gets one minted at the
current time. -/
theorem authToken_spec_witness :
    (jwtCallback ⟨none, none, none, none⟩ none 100).accessTokenCreatedAt =
      some 100 :=
  ((authToken_spec ⟨none, none, none, none⟩ none 100 "u" none).2.2.1
    (Or.inl rfl)).1

/-- C3: for a sealed trick with four plays whose first card fixes the led
suit, the trick winner is the play holding the highest-ranked trump card
when any trump was played, and otherwise the play holding the
highest-ranked card of the led suit; a card of neither suit never wins.
In particular with Hearts led and Spades trump, plays 9H, KH, 2S, AH are
won by the player of the 2S. -/
theorem trickWinner_correct (q0 : Fin 4 × GameCard) (rest : List (Fin 4 × GameCard))
    (led : Suit) (t : Trump)
    (_hlen : (q0 :: rest).length = 4) (hled : q0.2.suit = led) :
    (∃ q ∈ q0 :: rest,
        trickWinner (q0 :: rest) led t = some q.1 ∧
        (isTrumpCard t q.2 = true ∨ q.2.suit = led) ∧
        (∀ x ∈ q0 :: rest, isTrumpCard t x.2 = true →
            isTrumpCard t q.2 = true ∧ x.2.rank.value ≤ q.2.rank.value) ∧
        ((∀ x ∈ q0 :: rest, isTrumpCard t x.2 = false) →
            q.2.suit = led ∧
            ∀ x ∈ q0 :: rest, x.2.suit = led →
              x.2.rank.value ≤ q.2.rank.value)) ∧
    trickWinner
        [(0, ⟨Rank.r9, Suit.H⟩), (1, ⟨Rank.rK, Suit.H⟩),
         (2, ⟨Rank.r2, Suit.S⟩), (3, ⟨Rank.rA, Suit.H⟩)]
        Suit.H (Trump.suit Suit.S) = some 2 := by
  refine ⟨?_, by decide⟩
  by_cases htr : ((q0 :: rest).filter (fun q => isTrumpCard t q.2)).isEmpty = true
  · -- no trump was played
    have hfilnil : (q0 :: rest).filter (fun q => isTrumpCard t q.2) = [] :=
      List.isEmpty_iff.mp htr
    have hnone : ∀ x ∈ q0 :: rest, isTrumpCard t x.2 = false := by
      intro x hx
      cases hh : isTrumpCard t x.2
      · rfl
      · have : x ∈ (q0 :: rest).filter (fun q => isTrumpCard t q.2) :=
          List.mem_filter.mpr ⟨hx, hh⟩
        rw [hfilnil] at this
        simp at this
    have hq0pool : q0 ∈ (q0 :: rest).filter (fun q => q.2.suit = led) :=
      List.mem_filter.mpr ⟨List.mem_cons_self _ _, by simp [hled]⟩
    have hpoolne : (q0 :: rest).filter (fun q => q.2.suit = led) ≠ [] := by
      intro hh
      rw [hh] at hq0pool
      simp at hq0pool
    obtain ⟨q, hqmem, hqeq, hqmax⟩ := highestPlay_spec hpoolne
    have hqled : q.2.suit = led := by
      have := (List.mem_filter.mp hqmem).2
      simpa using this
    refine ⟨q, List.mem_of_mem_filter hqmem, ?_, Or.inr hqled, ?_, ?_⟩
    · simp [trickWinner, htr, hqeq]
    · intro x hx hxt
      rw [hnone x hx] at hxt
      exact absurd hxt (by simp)
    · intro _
      refine ⟨hqled, ?_⟩
      intro x hx hxled
      exact hqmax x (List.mem_filter.mpr ⟨hx, by simp [hxled]⟩)
  · -- some trump was played
    have hpoolne : (q0 :: rest).filter (fun q => isTrumpCard t q.2) ≠ [] := by
      intro hh
      rw [hh] at htr
      simp at htr
    obtain ⟨q, hqmem, hqeq, hqmax⟩ := highestPlay_spec hpoolne
    have hqt : isTrumpCard t q.2 = true := (List.mem_filter.mp hqmem).2
    have htr2 : ((q0 :: rest).filter (fun q => isTrumpCard t q.2)).isEmpty = false := by
      cases hh : ((q0 :: rest).filter (fun q => isTrumpCard t q.2)).isEmpty
      · rfl
      · exact absurd hh htr
    refine ⟨q, List.mem_of_mem_filter hqmem, ?_, Or.inl hqt, ?_, ?_⟩
    · simp [trickWinner, htr2, hqeq]
    · intro x hx hxt
      exact ⟨hqt, hqmax x (List.mem_filter.mpr ⟨hx, hxt⟩)⟩
    · intro hall
      have := hall q (List.mem_of_mem_filter hqmem)
      rw [hqt] at this
      exact absurd this (by simp)

/-- C3 witness: the theorem applied to the concrete scenario with Hearts
led and Spades trump, plays 9H, KH, 2S, AH. -/
theorem trickWinner_correct_witness :
    ∃ q ∈ [((0 : Fin 4), (⟨Rank.r9, Suit.H⟩ : GameCard)), (1, ⟨Rank.rK, Suit.H⟩),
           (2, ⟨Rank.r2, Suit.S⟩), (3, ⟨Rank.rA, Suit.H⟩)],
      trickWinner
          [(0, ⟨Rank.r9, Suit.H⟩), (1, ⟨Rank.rK, Suit.H⟩),
           (2, ⟨Rank.r2, Suit.S⟩), (3, ⟨Rank.rA, Suit.H⟩)]
          Suit.H (Trump.suit Suit.S) = some q.1 ∧
      (isTrumpCard (Trump.suit Suit.S) q.2 = true ∨ q.2.suit = Suit.H) ∧
      (∀ x ∈ [((0 : Fin 4), (⟨Rank.r9, Suit.H⟩ : GameCard)), (1, ⟨Rank.rK, Suit.H⟩),
              (2, ⟨Rank.r2, Suit.S⟩), (3, ⟨Rank.rA, Suit.H⟩)],
          isTrumpCard (Trump.suit Suit.S) x.2 = true →
            isTrumpCard (Trump.suit Suit.S) q.2 = true ∧
            x.2.rank.value ≤ q.2.rank.value) ∧
      ((∀ x ∈ [((0 : Fin 4), (⟨Rank.r9, Suit.H⟩ : GameCard)), (1, ⟨Rank.rK, Suit.H⟩),
               (2, ⟨Rank.r2, Suit.S⟩), (3, ⟨Rank.rA, Suit.H⟩)],
          isTrumpCard (Trump.suit Suit.S) x.2 = false) →
        q.2.suit = Suit.H ∧
        ∀ x ∈ [((0 : Fin 4), (⟨Rank.r9, Suit.H⟩ : GameCard)), (1, ⟨Rank.rK, Suit.H⟩),
               (2, ⟨Rank.r2, Suit.S⟩), (3, ⟨Rank.rA, Suit.H⟩)],
          x.2.suit = Suit.H → x.2.rank.value ≤ q.2.rank.value) :=
  (trickWinner_correct (0, ⟨Rank.r9, Suit.H⟩)
    [(1, ⟨Rank.rK, Suit.H⟩), (2, ⟨Rank.r2, Suit.S⟩), (3, ⟨Rank.rA, Suit.H⟩)]
    Suit.H (Trump.suit Suit.S) (by decide) (by decide)).1
